import Mathlib

/-!
Verification of the rendering-context snapshot stack
(`src/libs/hwui/Snapshot.cpp`) against its natural-language
specification.

The snapshot logic itself (constructors, `ensureClipRegion`,
`copyClipRectFromRegion`, `clipRegionOr/Xor/And/Nand`, `clip`,
`clipTransformed`, `setClip`, `resetClip`, `getLocalClip`,
`resetTransform`, `isIgnored`) is embedded from the source file.
The geometry primitives it consumes (the float rectangle, the integer
region with boolean set operations, and the 4x4 transform) live outside
the provided sources; the spec treats them as opaque consumed
capabilities, so they are modelled here from the spec's interface
description with exact rational arithmetic in place of floats and a
set-semantic region representation.
-/

set_option maxRecDepth 8000

namespace SnapshotSpec

/-! ### Integer rectangles (the region's rectangle type) -/

/-- Modelled from the spec: the integer rectangle consumed by the region
type (`android::Rect`): four bounds, half-open point set
`[left, right) x [top, bottom)`, empty when width or height is
non-positive. Not part of the provided sources. -/
structure IRect where
  left : ℤ
  top : ℤ
  right : ℤ
  bottom : ℤ
  deriving DecidableEq, Repr

namespace IRect

/-- A point `(x, y)` lies in the rectangle. -/
def mem (r : IRect) (p : ℤ × ℤ) : Prop :=
  r.left ≤ p.1 ∧ p.1 < r.right ∧ r.top ≤ p.2 ∧ p.2 < r.bottom

instance (r : IRect) (p : ℤ × ℤ) : Decidable (mem r p) := by
  unfold mem; infer_instance

/-- The rectangle holds no points. -/
def isEmptyR (r : IRect) : Bool :=
  r.right ≤ r.left || r.bottom ≤ r.top

theorem isEmptyR_iff (r : IRect) : r.isEmptyR = true ↔ ∀ p, ¬ r.mem p := by
  unfold isEmptyR mem
  constructor
  · intro h p hp
    rcases Bool.or_eq_true _ _ |>.mp h with h' | h' <;>
      simp only [decide_eq_true_eq] at h' <;> omega
  · intro h
    by_contra hne
    simp only [Bool.or_eq_true, decide_eq_true_eq, not_or, not_le] at hne
    exact h (r.left, r.top) ⟨le_refl _, hne.1, le_refl _, hne.2⟩

/-- Intersection of two rectangles (component-wise max/min). -/
def inter (a b : IRect) : IRect :=
  ⟨max a.left b.left, max a.top b.top, min a.right b.right, min a.bottom b.bottom⟩

theorem mem_inter (a b : IRect) (p : ℤ × ℤ) :
    (inter a b).mem p ↔ a.mem p ∧ b.mem p := by
  unfold inter mem
  constructor
  · rintro ⟨h1, h2, h3, h4⟩
    simp only [max_le_iff, lt_min_iff] at *
    exact ⟨⟨h1.1, h2.1, h3.1, h4.1⟩, ⟨h1.2, h2.2, h3.2, h4.2⟩⟩
  · rintro ⟨⟨a1, a2, a3, a4⟩, ⟨b1, b2, b3, b4⟩⟩
    exact ⟨max_le a1 b1, lt_min a2 b2, max_le a3 b3, lt_min a4 b4⟩

/-- Set difference `a \ b` decomposed into four disjoint rectangles
(top band, bottom band, left band, right band). -/
def rectSub (a b : IRect) : List IRect :=
  [ ⟨a.left, a.top, a.right, min a.bottom b.top⟩,
    ⟨a.left, max a.top b.bottom, a.right, a.bottom⟩,
    ⟨a.left, max a.top b.top, min a.right b.left, min a.bottom b.bottom⟩,
    ⟨max a.left b.right, max a.top b.top, a.right, min a.bottom b.bottom⟩ ]

theorem mem_rectSub (a b : IRect) (p : ℤ × ℤ) :
    (∃ c ∈ rectSub a b, c.mem p) ↔ a.mem p ∧ ¬ b.mem p := by
  unfold rectSub mem
  constructor
  · rintro ⟨c, hc, h1, h2, h3, h4⟩
    simp only [List.mem_cons, List.not_mem_nil, or_false] at hc
    rcases hc with rfl | rfl | rfl | rfl <;> simp only at h1 h2 h3 h4 <;> omega
  · rintro ⟨⟨a1, a2, a3, a4⟩, hb⟩
    push_neg at hb
    by_cases ht : p.2 < b.top
    · exact ⟨⟨a.left, a.top, a.right, min a.bottom b.top⟩, by simp,
        a1, a2, a3, lt_min a4 ht⟩
    · push_neg at ht
      by_cases hbb : b.bottom ≤ p.2
      · exact ⟨⟨a.left, max a.top b.bottom, a.right, a.bottom⟩, by simp,
          a1, a2, max_le a3 hbb, a4⟩
      · push_neg at hbb
        by_cases hl : p.1 < b.left
        · exact ⟨⟨a.left, max a.top b.top, min a.right b.left,
            min a.bottom b.bottom⟩, by simp,
            a1, lt_min a2 hl, max_le a3 ht, lt_min a4 hbb⟩
        · push_neg at hl
          have hr : b.right ≤ p.1 := by
            by_contra hbr
            push_neg at hbr
            exact absurd (hb hl hbr ht) (not_le.mpr hbb)
          exact ⟨⟨max a.left b.right, max a.top b.top, a.right,
            min a.bottom b.bottom⟩, by simp,
            max_le a1 hr, a2, max_le a3 ht, lt_min a4 hbb⟩

end IRect

/-! ### Regions -/

/-- Modelled from the spec: the general region type, a possibly
non-rectangular point set supporting boolean set operations with a
rectangle, emptiness/rectangularity queries and bounds extraction.
Represented as a finite union of integer rectangles; all queries are
decided against the point-set semantics, matching the observable
behaviour of the consumed region capability. Not part of the provided
sources. -/
abbrev Region : Type := List IRect

namespace Region

/-- A point lies in the region: in some rectangle of the union. -/
def mem (reg : Region) (p : ℤ × ℤ) : Prop :=
  ∃ c ∈ reg, IRect.mem c p

instance (reg : Region) (p : ℤ × ℤ) : Decidable (mem reg p) := by
  unfold mem; infer_instance

/-- `Region::set(rect)`: the region becomes exactly that rectangle. -/
def set (r : IRect) : Region := [r]

/-- `Region::orSelf(rect)`: set union with the rectangle. -/
def orOp (reg : Region) (r : IRect) : Region := r :: reg

/-- `Region::andSelf(rect)`: set intersection with the rectangle. -/
def andOp (reg : Region) (r : IRect) : Region :=
  reg.map (fun c => IRect.inter c r)

/-- `Region::subtractSelf(rect)`: set difference, region minus
rectangle. -/
def subOp (reg : Region) (r : IRect) : Region :=
  reg.flatMap (fun c => IRect.rectSub c r)

/-- Subtract a whole region from a single rectangle. -/
def rectMinus (r : IRect) (reg : Region) : Region :=
  reg.foldl (fun acc c => subOp acc c) [r]

/-- `Region::xorSelf(rect)`: symmetric difference with the
rectangle. -/
def xorOp (reg : Region) (r : IRect) : Region :=
  subOp reg r ++ rectMinus r reg

/-- `Region::isEmpty()`: the region holds no points. -/
def isEmpty (reg : Region) : Bool :=
  reg.all IRect.isEmptyR

/-- Bounds accumulation over the nonempty pieces. -/
def boundsAux (reg : Region) (acc : Option IRect) : Option IRect :=
  match reg with
  | [] => acc
  | c :: rest =>
      if c.isEmptyR then boundsAux rest acc
      else
        match acc with
        | none => boundsAux rest (some c)
        | some b => boundsAux rest (some ⟨min b.left c.left, min b.top c.top,
            max b.right c.right, max b.bottom c.bottom⟩)

/-- `Region::bounds()`: the bounding rectangle of the region (the zero
rectangle when the region is empty). -/
def bounds (reg : Region) : IRect :=
  (boundsAux reg none).getD ⟨0, 0, 0, 0⟩

/-- `Region::isRect()`: the region's point set is exactly one
(nonempty) rectangle, i.e. it covers its own bounds. -/
def isRect (reg : Region) : Bool :=
  !reg.isEmpty && (rectMinus reg.bounds reg).isEmpty

theorem mem_set (r : IRect) (p : ℤ × ℤ) : (set r).mem p ↔ r.mem p := by
  simp only [set, mem, List.mem_singleton]
  constructor
  · rintro ⟨c, rfl, hm⟩
    exact hm
  · intro hm
    exact ⟨r, rfl, hm⟩

theorem mem_orOp (reg : Region) (r : IRect) (p : ℤ × ℤ) :
    (reg.orOp r).mem p ↔ reg.mem p ∨ r.mem p := by
  simp only [mem, orOp, List.mem_cons]
  constructor
  · rintro ⟨c, rfl | hc, hm⟩
    exacts [Or.inr hm, Or.inl ⟨c, hc, hm⟩]
  · rintro (⟨c, hc, hm⟩ | hm)
    exacts [⟨c, Or.inr hc, hm⟩, ⟨r, Or.inl rfl, hm⟩]

theorem mem_andOp (reg : Region) (r : IRect) (p : ℤ × ℤ) :
    (reg.andOp r).mem p ↔ reg.mem p ∧ r.mem p := by
  simp only [mem, andOp, List.mem_map]
  constructor
  · rintro ⟨c, ⟨a, ha, rfl⟩, hm⟩
    rw [IRect.mem_inter] at hm
    exact ⟨⟨a, ha, hm.1⟩, hm.2⟩
  · rintro ⟨⟨a, ha, hm⟩, hr⟩
    exact ⟨_, ⟨a, ha, rfl⟩, (IRect.mem_inter a r p).mpr ⟨hm, hr⟩⟩

theorem mem_subOp (reg : Region) (r : IRect) (p : ℤ × ℤ) :
    (reg.subOp r).mem p ↔ reg.mem p ∧ ¬ r.mem p := by
  simp only [mem, subOp, List.mem_flatMap]
  constructor
  · rintro ⟨c, ⟨a, ha, hc⟩, hm⟩
    have h := (IRect.mem_rectSub a r p).mp ⟨c, hc, hm⟩
    exact ⟨⟨a, ha, h.1⟩, h.2⟩
  · rintro ⟨⟨a, ha, hm⟩, hr⟩
    obtain ⟨c, hc, hcm⟩ := (IRect.mem_rectSub a r p).mpr ⟨hm, hr⟩
    exact ⟨c, ⟨a, ha, hc⟩, hcm⟩

end Region

/-! ### Floating-point rectangles, modelled with exact rationals -/

/-- Minimum of two rationals, written so that it evaluates by kernel
reduction. -/
def qmin (a b : ℚ) : ℚ := if a ≤ b then a else b

/-- Maximum of two rationals, written so that it evaluates by kernel
reduction. -/
def qmax (a b : ℚ) : ℚ := if a ≤ b then b else a

theorem qmin_eq (a b : ℚ) : qmin a b = min a b := by
  rw [qmin, min_def]

theorem qmax_eq (a b : ℚ) : qmax a b = max a b := by
  rw [qmax, max_def]

/-- Modelled from the spec: the floating-point clip rectangle
(`uirenderer::Rect`): four bounds, intersect, bounding-box union,
set-empty and emptiness query, with exact rational arithmetic standing
in for IEEE floats. Not part of the provided sources. -/
structure FRect where
  left : ℚ
  top : ℚ
  right : ℚ
  bottom : ℚ
  deriving DecidableEq, Repr

namespace FRect

/-- `Rect::setEmpty()`: all four bounds become zero. -/
def emptyR : FRect := ⟨0, 0, 0, 0⟩

/-- The rectangle has positive width and height. -/
def nonEmpty (r : FRect) : Prop := r.left < r.right ∧ r.top < r.bottom

instance (r : FRect) : Decidable (nonEmpty r) := by
  unfold nonEmpty; infer_instance

/-- `Rect::intersect(r)`: the intersection when it is nonempty
(the receiver is updated), `none` when the rectangles do not overlap
(the receiver is left unchanged and the call reports false). -/
def intersectQ (a b : FRect) : Option FRect :=
  let l := qmax a.left b.left
  let t := qmax a.top b.top
  let r := qmin a.right b.right
  let bo := qmin a.bottom b.bottom
  if l < r ∧ t < bo then some ⟨l, t, r, bo⟩ else none

/-- `Rect::unionWith(r)`: bounding-box union; reports false (no
change) when the argument is empty. -/
def unionWithQ (a b : FRect) : FRect × Bool :=
  if b.nonEmpty then
    if a.nonEmpty then
      (⟨qmin a.left b.left, qmin a.top b.top,
        qmax a.right b.right, qmax a.bottom b.bottom⟩, true)
    else (b, true)
  else (a, false)

end FRect

/-- C truncation-toward-zero conversion from float to int, as in the
`android::Rect(float, float, float, float)` constructor. -/
def truncQ (q : ℚ) : ℤ := if 0 ≤ q then ⌊q⌋ else ⌈q⌉

/-- The integer rectangle obtained from four float bounds by C
truncation. -/
def IRect.ofQ (l t r b : ℚ) : IRect :=
  ⟨truncQ l, truncQ t, truncQ r, truncQ b⟩

/-- The float rectangle with the same (integer) bounds as an integer
rectangle, as produced by `clipRect->set(bounds.left, ...)`. -/
def FRect.ofI (r : IRect) : FRect :=
  ⟨(r.left : ℚ), (r.top : ℚ), (r.right : ℚ), (r.bottom : ℚ)⟩

/-! ### Transforms -/

/-- Modelled from the spec: the transform capability (`mat4`), reduced
to its action on 2D points: an affine map
`(x, y) ↦ (a x + b y + tx, c x + d y + ty)` with exact rational
entries. Supports load-from-other, load-translation, invert-into and
map-rectangle, as the spec's interface lists. Not part of the provided
sources. -/
structure Transform where
  a : ℚ
  b : ℚ
  c : ℚ
  d : ℚ
  tx : ℚ
  ty : ℚ
  deriving DecidableEq, Repr

namespace Transform

/-- Apply the affine map to a point. -/
def apply (t : Transform) (x y : ℚ) : ℚ × ℚ :=
  (t.a * x + t.b * y + t.tx, t.c * x + t.d * y + t.ty)

/-- The identity transform (`loadIdentity`, the default state). -/
def identityT : Transform := ⟨1, 0, 0, 1, 0, 0⟩

/-- `Matrix4::loadTranslate(x, y, z)`: a pure translation; the z
component does not affect the 2D action on rectangles. -/
def loadTranslate (x y _z : ℚ) : Transform := ⟨1, 0, 0, 1, x, y⟩

/-- Determinant of the linear part. -/
def det (t : Transform) : ℚ := t.a * t.d - t.b * t.c

/-- `Matrix4::loadInverse(t)`: the inverse affine map when the linear
part is invertible; the spec directs a degenerate (zero-area) result
for a non-invertible transform, modelled as the zero map. -/
def loadInverse (t : Transform) : Transform :=
  if t.det = 0 then ⟨0, 0, 0, 0, 0, 0⟩
  else
    ⟨t.d / t.det, -t.b / t.det, -t.c / t.det, t.a / t.det,
     (-t.d * t.tx + t.b * t.ty) / t.det,
     (t.c * t.tx - t.a * t.ty) / t.det⟩

/-- `Matrix4::mapRect(r)`: map the four corners and take the bounding
box. -/
def mapRect (t : Transform) (r : FRect) : FRect :=
  let p1 := t.apply r.left r.top
  let p2 := t.apply r.right r.top
  let p3 := t.apply r.left r.bottom
  let p4 := t.apply r.right r.bottom
  ⟨qmin (qmin p1.1 p2.1) (qmin p3.1 p4.1),
   qmin (qmin p1.2 p2.2) (qmin p3.2 p4.2),
   qmax (qmax p1.1 p2.1) (qmax p3.1 p4.1),
   qmax (qmax p1.2 p2.2) (qmax p3.2 p4.2)⟩

end Transform

/-! ### The snapshot node (embedded from `Snapshot.cpp`)

The value model: each snapshot carries the values of its clip/transform
state. Pointer aliasing between a child and its parent (the
`SK_FLAG`-controlled copy-versus-alias choice) is modelled separately
below for the aliasing claims; in the value model a child simply starts
from the parent's values. The `STENCIL_BUFFER_SIZE` build gate is an
explicit `st : Bool` parameter threaded through every operation that
the preprocessor conditions on. -/

/-- `SkRegion::Op`, the requested set-operation code. -/
inductive SkOp where
  | kDifference
  | kIntersect
  | kUnion
  | kXOR
  | kReverseDifference
  | kReplace
  deriving DecidableEq, Repr

/-- The snapshot node state (value model). `flagClipSet` and
`flagFboTarget` are the two flag bits the embedded code reads or
writes; `regionRef` records whether the non-owning dirty-region
pointer is non-null. -/
structure Snapshot where
  flagClipSet : Bool
  flagFboTarget : Bool
  invisible : Bool
  empty : Bool
  alpha : ℚ
  fbo : ℕ
  viewport : FRect
  height : ℤ
  transform : Transform
  clipRect : FRect
  clipRegion : Option Region
  regionRef : Bool
  deriving DecidableEq, Repr

namespace Snapshot

/-- `Snapshot::Snapshot()`: the root node — zero flags, invisible and
empty false, alpha 1, identity transform, default (zero) clip
rectangle, null region pointers. -/
def root : Snapshot where
  flagClipSet := false
  flagFboTarget := false
  invisible := false
  empty := false
  alpha := 1
  fbo := 0
  viewport := FRect.emptyR
  height := 0
  transform := Transform.identityT
  clipRect := ⟨0, 0, 0, 0⟩
  clipRegion := none
  regionRef := false

/-- `Snapshot::Snapshot(s, saveFlags)`: child construction. `fbo`,
`invisible`, `viewport`, `height`, `alpha` copy unconditionally;
`empty` and the clip-set flag start false; the fbo-target flag and the
dirty-region reference propagate only when the parent targets a layer.
In the value model the preserve-matrix/preserve-clip save flags do not
change the observable values (copy and alias hold the same state), so
they are unused here; the clip region is only carried over when the
stencil gate is compiled in. -/
def save (st : Bool) (s : Snapshot) (_preserveMatrix _preserveClip : Bool) :
    Snapshot where
  flagClipSet := false
  flagFboTarget := s.flagFboTarget
  invisible := s.invisible
  empty := false
  alpha := s.alpha
  fbo := s.fbo
  viewport := s.viewport
  height := s.height
  transform := s.transform
  clipRect := s.clipRect
  clipRegion := if st then s.clipRegion else none
  regionRef := if s.flagFboTarget then s.regionRef else false

/-- `Snapshot::ensureClipRegion()`: under the stencil gate, a null
region is seeded from the current clip rectangle (float bounds
truncated to integers). -/
def ensureClipRegion (st : Bool) (s : Snapshot) : Snapshot :=
  if st then
    match s.clipRegion with
    | none => { s with clipRegion := some (Region.set
        (IRect.ofQ s.clipRect.left s.clipRect.top
          s.clipRect.right s.clipRect.bottom)) }
    | some _ => s
  else s

/-- `Snapshot::copyClipRectFromRegion()`: under the stencil gate, a
nonempty region writes its bounds into the clip rectangle and is
discarded when exactly rectangular; an empty region empties the clip
rectangle and is discarded. Only ever invoked with an active region. -/
def copyClipRectFromRegion (st : Bool) (s : Snapshot) : Snapshot :=
  if st then
    match s.clipRegion with
    | some reg =>
        if !reg.isEmpty then
          let s' := { s with clipRect := FRect.ofI reg.bounds }
          if reg.isRect then { s' with clipRegion := none } else s'
        else { s with clipRect := FRect.emptyR, clipRegion := none }
    | none => s
  else s

/-- `Snapshot::clipRegionOr`: OR the rectangle into the region, then
collapse; false (no change) when the stencil gate is off. The active
region is non-null at every call site in the source (a null region
would be dereferenced), so the `none` case is vacuous. -/
def clipRegionOr (st : Bool) (s : Snapshot) (l t r b : ℚ) :
    Snapshot × Bool :=
  if st then
    match s.clipRegion with
    | some reg => (copyClipRectFromRegion st
        { s with clipRegion := some (reg.orOp (IRect.ofQ l t r b)) }, true)
    | none => (s, true)
  else (s, false)

/-- `Snapshot::clipRegionXor`: XOR the rectangle into the region, then
collapse; false when the stencil gate is off. -/
def clipRegionXor (st : Bool) (s : Snapshot) (l t r b : ℚ) :
    Snapshot × Bool :=
  if st then
    match s.clipRegion with
    | some reg => (copyClipRectFromRegion st
        { s with clipRegion := some (reg.xorOp (IRect.ofQ l t r b)) }, true)
    | none => (s, true)
  else (s, false)

/-- `Snapshot::clipRegionAnd`: AND the rectangle into the region, then
collapse; false when the stencil gate is off. -/
def clipRegionAnd (st : Bool) (s : Snapshot) (l t r b : ℚ) :
    Snapshot × Bool :=
  if st then
    match s.clipRegion with
    | some reg => (copyClipRectFromRegion st
        { s with clipRegion := some (reg.andOp (IRect.ofQ l t r b)) }, true)
    | none => (s, true)
  else (s, false)

/-- `Snapshot::clipRegionNand`: subtract the rectangle from the
region, then collapse; false when the stencil gate is off. -/
def clipRegionNand (st : Bool) (s : Snapshot) (l t r b : ℚ) :
    Snapshot × Bool :=
  if st then
    match s.clipRegion with
    | some reg => (copyClipRectFromRegion st
        { s with clipRegion := some (reg.subOp (IRect.ofQ l t r b)) }, true)
    | none => (s, true)
  else (s, false)

/-- `Snapshot::setClip`: write the clip rectangle directly, discard
any active region (under the stencil gate), and raise the clip-set
flag. -/
def setClip (st : Bool) (s : Snapshot) (l t r b : ℚ) : Snapshot :=
  let s1 := { s with clipRect := (⟨l, t, r, b⟩ : FRect) }
  let s2 := if st then { s1 with clipRegion := none } else s1
  { s2 with flagClipSet := true }

/-- `Snapshot::clipTransformed`: dispatch on the requested op; a
successful clip raises the clip-set flag. -/
def clipTransformed (st : Bool) (s : Snapshot) (r : FRect) (op : SkOp) :
    Snapshot × Bool :=
  let res : Snapshot × Bool :=
    match op with
    | .kDifference =>
        clipRegionNand st (ensureClipRegion st s) r.left r.top r.right r.bottom
    | .kIntersect =>
        match s.clipRegion with
        | some _ => clipRegionOr st s r.left r.top r.right r.bottom
        | none =>
            match s.clipRect.intersectQ r with
            | some nr => ({ s with clipRect := nr }, true)
            | none => ({ s with clipRect := FRect.emptyR }, true)
    | .kUnion =>
        match s.clipRegion with
        | some _ => clipRegionAnd st s r.left r.top r.right r.bottom
        | none =>
            let u := s.clipRect.unionWithQ r
            ({ s with clipRect := u.1 }, u.2)
    | .kXOR =>
        clipRegionXor st (ensureClipRegion st s) r.left r.top r.right r.bottom
    | .kReverseDifference => (s, false)
    | .kReplace => (setClip st s r.left r.top r.right r.bottom, true)
  if res.2 then ({ res.1 with flagClipSet := true }, true) else res

/-- `Snapshot::clip`: the public entry point maps the caller-space
rectangle through the current transform, then applies the op. -/
def clip (st : Bool) (s : Snapshot) (l t r b : ℚ) (op : SkOp) :
    Snapshot × Bool :=
  clipTransformed st s (s.transform.mapRect ⟨l, t, r, b⟩) op

/-- `Snapshot::resetClip`: re-anchor to private rectangle storage
(identity in the value model) and set the clip. -/
def resetClip (st : Bool) (s : Snapshot) (l t r b : ℚ) : Snapshot :=
  setClip st s l t r b

/-- `Snapshot::getLocalClip`: map the clip rectangle through the
inverse of the current transform. -/
def getLocalClip (s : Snapshot) : FRect :=
  (Transform.loadInverse s.transform).mapRect s.clipRect

/-- `Snapshot::resetTransform`: re-anchor to private transform storage
and load a pure translation. -/
def resetTransform (s : Snapshot) (x y z : ℚ) : Snapshot :=
  { s with transform := Transform.loadTranslate x y z }

/-- `Snapshot::isIgnored`. -/
def isIgnored (s : Snapshot) : Bool :=
  s.invisible || s.empty

end Snapshot

/-- One public mutating operation of the core, for reasoning about
arbitrary operation sequences. -/
inductive PubOp where
  | clipOp (l t r b : ℚ) (op : SkOp)
  | setClipOp (l t r b : ℚ)
  | resetClipOp (l t r b : ℚ)
  | resetTransformOp (x y z : ℚ)
  | saveOp (preserveMatrix preserveClip : Bool)
  deriving DecidableEq, Repr

/-- Apply one public operation to a snapshot. -/
def applyOp (st : Bool) (s : Snapshot) (o : PubOp) : Snapshot :=
  match o with
  | .clipOp l t r b op => (Snapshot.clip st s l t r b op).1
  | .setClipOp l t r b => Snapshot.setClip st s l t r b
  | .resetClipOp l t r b => Snapshot.resetClip st s l t r b
  | .resetTransformOp x y z => Snapshot.resetTransform s x y z
  | .saveOp pm pc => Snapshot.save st s pm pc

/-- Run a sequence of public operations. -/
def runOps (st : Bool) (s : Snapshot) (ops : List PubOp) : Snapshot :=
  ops.foldl (applyOp st) s

/-! ### Claim theorems -/

/-- **C9.** `isIgnored` returns true if and only if the node's
`invisible` flag is true or its `empty` flag is true, and returns
false exactly when both are false. -/
theorem c9_isIgnored_iff (s : Snapshot) :
    (s.isIgnored = true ↔ (s.invisible = true ∨ s.empty = true)) ∧
    (s.isIgnored = false ↔ (s.invisible = false ∧ s.empty = false)) := by
  unfold Snapshot.isIgnored
  cases h1 : s.invisible <;> cases h2 : s.empty <;> simp

/-- **C5.** A clip call with the reverse-difference op leaves the
snapshot (clip rectangle, clip region, flags and all other fields)
completely unchanged and returns false, both at the transformed-
rectangle level and through the public `clip` entry point, for every
prior state and every input rectangle. -/
theorem c5_reverseDifference_noop (st : Bool) (s : Snapshot) (r : FRect)
    (l t rr bb : ℚ) :
    Snapshot.clipTransformed st s r .kReverseDifference = (s, false) ∧
    Snapshot.clip st s l t rr bb .kReverseDifference = (s, false) := by
  constructor <;> rfl

/-- **C3.** With no active clip region, an intersect clip intersects
the clip rectangle with the given (already transformed) rectangle,
forces the rectangle to empty when the intersection is empty, returns
true in both cases, raises only the clip-set flag, and never creates a
clip region. -/
theorem c3_intersect_rect_path (st : Bool) (s : Snapshot) (r : FRect)
    (h : s.clipRegion = none) :
    Snapshot.clipTransformed st s r .kIntersect =
      ({ s with
          flagClipSet := true
          clipRect := match s.clipRect.intersectQ r with
            | some nr => nr
            | none => FRect.emptyR }, true) ∧
    (Snapshot.clipTransformed st s r .kIntersect).1.clipRegion = none := by
  unfold Snapshot.clipTransformed
  rw [h]
  cases hi : s.clipRect.intersectQ r <;> simp [hi, h]

/-- Witness for C3 at the spec's example: clip (0,0,100,100)
intersected with (50,-10,150,50) yields exactly (50,0,100,50), reports
clipped, and the region stays null. -/
theorem c3_intersect_rect_path_witness :
    (Snapshot.clipTransformed true
        { Snapshot.root with clipRect := ⟨0, 0, 100, 100⟩ }
        ⟨50, -10, 150, 50⟩ .kIntersect).1.clipRect = ⟨50, 0, 100, 50⟩ ∧
    (Snapshot.clipTransformed true
        { Snapshot.root with clipRect := ⟨0, 0, 100, 100⟩ }
        ⟨50, -10, 150, 50⟩ .kIntersect).1.clipRegion = none ∧
    (Snapshot.clipTransformed true
        { Snapshot.root with clipRect := ⟨0, 0, 100, 100⟩ }
        ⟨50, -10, 150, 50⟩ .kIntersect).2 = true := by
  have h := c3_intersect_rect_path true
    { Snapshot.root with clipRect := ⟨0, 0, 100, 100⟩ } ⟨50, -10, 150, 50⟩ rfl
  refine ⟨?_, h.2, ?_⟩
  · rw [h.1]
    decide
  · rw [h.1]

/-- **C6.** With the stencil gate disabled, the region-producing clip
operations (difference, xor, and intersect/union while a region is
active) all return false and leave the state unchanged, for any prior
state; rectangle-mode intersect and union still function. -/
theorem c6_stencil_disabled (s : Snapshot) (r : FRect) :
    Snapshot.clipTransformed false s r .kDifference = (s, false) ∧
    Snapshot.clipTransformed false s r .kXOR = (s, false) ∧
    (s.clipRegion ≠ none →
      Snapshot.clipTransformed false s r .kIntersect = (s, false) ∧
      Snapshot.clipTransformed false s r .kUnion = (s, false)) ∧
    (s.clipRegion = none →
      (Snapshot.clipTransformed false s r .kIntersect).2 = true ∧
      (Snapshot.clipTransformed false s r .kIntersect).1.clipRect =
        (match s.clipRect.intersectQ r with
          | some nr => nr
          | none => FRect.emptyR) ∧
      (Snapshot.clipTransformed false s r .kUnion).1.clipRect =
        (s.clipRect.unionWithQ r).1) := by
  refine ⟨?_, ?_, ?_, ?_⟩
  · unfold Snapshot.clipTransformed Snapshot.ensureClipRegion
      Snapshot.clipRegionNand
    simp
  · unfold Snapshot.clipTransformed Snapshot.ensureClipRegion
      Snapshot.clipRegionXor
    simp
  · intro h
    cases hr : s.clipRegion with
    | none => exact absurd hr h
    | some reg =>
        constructor <;>
          · unfold Snapshot.clipTransformed Snapshot.clipRegionOr
              Snapshot.clipRegionAnd
            rw [hr]
            simp
  · intro h
    have h3 := c3_intersect_rect_path false s r h
    refine ⟨by rw [h3.1], by rw [h3.1], ?_⟩
    unfold Snapshot.clipTransformed
    rw [h]
    cases hu : (s.clipRect.unionWithQ r).2 <;> simp [hu]

/-- Witness for C6: with the gate off, a difference op on a state with
clip rectangle (3,4,50,60) is a no-op returning false; intersect and
union on a region-bearing state are no-ops; rectangle-mode intersect
still intersects. -/
theorem c6_stencil_disabled_witness :
    Snapshot.clipTransformed false
        { Snapshot.root with clipRect := ⟨3, 4, 50, 60⟩ }
        ⟨0, 0, 10, 10⟩ .kDifference =
      ({ Snapshot.root with clipRect := ⟨3, 4, 50, 60⟩ }, false) ∧
    Snapshot.clipTransformed false
        { Snapshot.root with
          clipRect := ⟨3, 4, 50, 60⟩,
          clipRegion := some [⟨0, 0, 2, 2⟩, ⟨5, 5, 9, 9⟩] }
        ⟨0, 0, 10, 10⟩ .kIntersect =
      ({ Snapshot.root with
          clipRect := ⟨3, 4, 50, 60⟩,
          clipRegion := some [⟨0, 0, 2, 2⟩, ⟨5, 5, 9, 9⟩] }, false) ∧
    (Snapshot.clipTransformed false
        { Snapshot.root with clipRect := ⟨3, 4, 50, 60⟩ }
        ⟨0, 0, 10, 10⟩ .kIntersect).1.clipRect = ⟨3, 4, 10, 10⟩ := by
  refine ⟨(c6_stencil_disabled _ ⟨0, 0, 10, 10⟩).1, ?_, ?_⟩
  · exact ((c6_stencil_disabled _ ⟨0, 0, 10, 10⟩).2.2.1 (by simp)).1
  · rw [((c6_stencil_disabled _ ⟨0, 0, 10, 10⟩).2.2.2 rfl).2.1]
    decide

/-- **C1.** While a clip region is active (stencil gate on), an
intersect clip OR-combines the new rectangle into the region and then
collapses, and a union clip AND-combines the new rectangle into the
region and then collapses — and the OR/AND combinators really are
point-set union and intersection, so the implementation performs the
literal op-to-combinator table, not the intuitive inverse. -/
theorem c1_region_mode_or_and (s : Snapshot) (r : FRect) (reg : Region)
    (h : s.clipRegion = some reg) :
    Snapshot.clipTransformed true s r .kIntersect =
      ({ Snapshot.copyClipRectFromRegion true
          { s with clipRegion := some (reg.orOp
              (IRect.ofQ r.left r.top r.right r.bottom)) }
        with flagClipSet := true }, true) ∧
    Snapshot.clipTransformed true s r .kUnion =
      ({ Snapshot.copyClipRectFromRegion true
          { s with clipRegion := some (reg.andOp
              (IRect.ofQ r.left r.top r.right r.bottom)) }
        with flagClipSet := true }, true) ∧
    (∀ x p, (reg.orOp x).mem p ↔ reg.mem p ∨ x.mem p) ∧
    (∀ x p, (reg.andOp x).mem p ↔ reg.mem p ∧ x.mem p) := by
  refine ⟨?_, ?_, fun x p => Region.mem_orOp reg x p,
    fun x p => Region.mem_andOp reg x p⟩
  · unfold Snapshot.clipTransformed Snapshot.clipRegionOr
    rw [h]
    simp
  · unfold Snapshot.clipTransformed Snapshot.clipRegionAnd
    rw [h]
    simp

/-- Witness for C1: on a genuinely non-rectangular active region (two
separate squares), intersect with (0,0,30,5) OR-combines: the region
becomes the point-set union (here still non-rectangular, kept as a
region with bounds (0,0,30,10)). -/
theorem c1_region_mode_or_and_witness :
    (Snapshot.clipTransformed true
        { Snapshot.root with
          clipRect := ⟨0, 0, 30, 10⟩,
          clipRegion := some [⟨0, 0, 10, 10⟩, ⟨20, 0, 30, 10⟩] }
        ⟨0, 0, 30, 5⟩ .kIntersect).1.clipRegion =
      some (Region.orOp [⟨0, 0, 10, 10⟩, ⟨20, 0, 30, 10⟩] ⟨0, 0, 30, 5⟩) ∧
    (Snapshot.clipTransformed true
        { Snapshot.root with
          clipRect := ⟨0, 0, 30, 10⟩,
          clipRegion := some [⟨0, 0, 10, 10⟩, ⟨20, 0, 30, 10⟩] }
        ⟨0, 0, 30, 5⟩ .kIntersect).1.clipRect = ⟨0, 0, 30, 10⟩ ∧
    Region.mem (Region.orOp [⟨0, 0, 10, 10⟩, ⟨20, 0, 30, 10⟩]
        (IRect.ofQ 0 0 30 5)) (15, 3) := by
  have h := c1_region_mode_or_and
    { Snapshot.root with
      clipRect := ⟨0, 0, 30, 10⟩,
      clipRegion := some [⟨0, 0, 10, 10⟩, ⟨20, 0, 30, 10⟩] }
    ⟨0, 0, 30, 5⟩ [⟨0, 0, 10, 10⟩, ⟨20, 0, 30, 10⟩] rfl
  refine ⟨?_, ?_, ?_⟩
  · rw [h.1]
    decide
  · rw [h.1]
    decide
  · exact (h.2.2.1 (IRect.ofQ 0 0 30 5) (15, 3)).mpr
      (Or.inr (by constructor <;> [decide; constructor <;>
        [decide; constructor <;> decide]]))

/-- **C2.** With region support enabled, a difference clip activates
region mode when it is not already active (seeding the region from the
current clip rectangle), subtracts the new rectangle from the region
(point-set difference) and collapses; on an already-active region it
subtracts directly and collapses. -/
theorem c2_difference (s : Snapshot) (r : FRect) :
    (s.clipRegion = none →
      Snapshot.clipTransformed true s r .kDifference =
        ({ Snapshot.copyClipRectFromRegion true
            { s with clipRegion := some ((Region.set
                (IRect.ofQ s.clipRect.left s.clipRect.top
                  s.clipRect.right s.clipRect.bottom)).subOp
                (IRect.ofQ r.left r.top r.right r.bottom)) }
          with flagClipSet := true }, true)) ∧
    (∀ reg, s.clipRegion = some reg →
      Snapshot.clipTransformed true s r .kDifference =
        ({ Snapshot.copyClipRectFromRegion true
            { s with clipRegion := some (reg.subOp
                (IRect.ofQ r.left r.top r.right r.bottom)) }
          with flagClipSet := true }, true)) ∧
    (∀ reg x p, (Region.subOp reg x).mem p ↔ reg.mem p ∧ ¬ x.mem p) := by
  refine ⟨?_, ?_, fun reg x p => Region.mem_subOp reg x p⟩
  · intro h
    simp [Snapshot.clipTransformed, Snapshot.ensureClipRegion,
      Snapshot.clipRegionNand, h]
  · intro reg h
    simp [Snapshot.clipTransformed, Snapshot.ensureClipRegion,
      Snapshot.clipRegionNand, h]

/-- Witness for C2 at the spec's example: from clip rectangle
(0,0,100,100) with no region, a difference with (0,0,100,50) leaves
clip rectangle (0,50,100,100), the region reference null, and reports
clipped. -/
theorem c2_difference_witness :
    (Snapshot.clipTransformed true
        { Snapshot.root with clipRect := ⟨0, 0, 100, 100⟩ }
        ⟨0, 0, 100, 50⟩ .kDifference).1.clipRect = ⟨0, 50, 100, 100⟩ ∧
    (Snapshot.clipTransformed true
        { Snapshot.root with clipRect := ⟨0, 0, 100, 100⟩ }
        ⟨0, 0, 100, 50⟩ .kDifference).1.clipRegion = none ∧
    (Snapshot.clipTransformed true
        { Snapshot.root with clipRect := ⟨0, 0, 100, 100⟩ }
        ⟨0, 0, 100, 50⟩ .kDifference).2 = true := by
  have h := (c2_difference
    { Snapshot.root with clipRect := ⟨0, 0, 100, 100⟩ } ⟨0, 0, 100, 50⟩).1 rfl
  refine ⟨?_, ?_, by rw [h]⟩
  · rw [h]
    decide
  · rw [h]
    decide

/-- The clip-region downgrade invariant: the region reference is null
unless it denotes a genuinely non-rectangular, nonempty shape. -/
def ClipRegionInv (s : Snapshot) : Prop :=
  match s.clipRegion with
  | none => True
  | some reg => reg.isEmpty = false ∧ reg.isRect = false

instance (s : Snapshot) : Decidable (ClipRegionInv s) := by
  unfold ClipRegionInv
  cases s.clipRegion <;> infer_instance

theorem clipRegionInv_of_none (s : Snapshot) (h : s.clipRegion = none) :
    ClipRegionInv s := by
  unfold ClipRegionInv
  rw [h]
  trivial

theorem clipRegionInv_collapse (s : Snapshot) :
    ClipRegionInv (Snapshot.copyClipRectFromRegion true s) := by
  unfold Snapshot.copyClipRectFromRegion
  cases hcr : s.clipRegion with
  | none => simp [ClipRegionInv, hcr]
  | some reg =>
      cases he : reg.isEmpty with
      | true => simp [ClipRegionInv, hcr, he]
      | false =>
          cases hrect : reg.isRect with
          | true => simp [ClipRegionInv, hcr, he, hrect]
          | false => simp [ClipRegionInv, hcr, he, hrect]

theorem clipRegionInv_clipTransformed (st : Bool) (s : Snapshot) (r : FRect)
    (op : SkOp) (h : ClipRegionInv s) :
    ClipRegionInv (Snapshot.clipTransformed st s r op).1 := by
  have hflag : ∀ t : Snapshot, ClipRegionInv t →
      ClipRegionInv { t with flagClipSet := true } := by
    intro t ht
    unfold ClipRegionInv at *
    exact ht
  have hone : ∀ res : Snapshot × Bool, ClipRegionInv res.1 →
      ClipRegionInv (if res.2 = true then
        ({ res.1 with flagClipSet := true }, true) else res).1 := by
    intro res hres
    cases hb : res.2 <;> simp [hb] <;> [exact hres; exact hflag _ hres]
  cases op
  case kDifference =>
      unfold Snapshot.clipTransformed
      apply hone
      cases st
      · simpa [Snapshot.ensureClipRegion, Snapshot.clipRegionNand] using h
      · unfold Snapshot.clipRegionNand Snapshot.ensureClipRegion
        cases hcr : s.clipRegion <;>
          simp [hcr, clipRegionInv_collapse]
  case kIntersect =>
      unfold Snapshot.clipTransformed
      apply hone
      cases hcr : s.clipRegion with
      | none =>
          cases hi : s.clipRect.intersectQ r <;>
            simp [hcr, hi, ClipRegionInv]
      | some reg =>
          cases st
          · simpa [Snapshot.clipRegionOr, hcr, ClipRegionInv,
              ClipRegionInv.eq_def] using h
          · unfold Snapshot.clipRegionOr
            simp [hcr, clipRegionInv_collapse]
  case kUnion =>
      unfold Snapshot.clipTransformed
      apply hone
      cases hcr : s.clipRegion with
      | none =>
          simp only [hcr]
          unfold ClipRegionInv at *
          simp [hcr]
      | some reg =>
          cases st
          · simpa [Snapshot.clipRegionAnd, hcr, ClipRegionInv,
              ClipRegionInv.eq_def] using h
          · unfold Snapshot.clipRegionAnd
            simp [hcr, clipRegionInv_collapse]
  case kXOR =>
      unfold Snapshot.clipTransformed
      apply hone
      cases st
      · simpa [Snapshot.ensureClipRegion, Snapshot.clipRegionXor] using h
      · unfold Snapshot.clipRegionXor Snapshot.ensureClipRegion
        cases hcr : s.clipRegion <;>
          simp [hcr, clipRegionInv_collapse]
  case kReverseDifference =>
      unfold Snapshot.clipTransformed
      simpa using h
  case kReplace =>
      unfold Snapshot.clipTransformed
      apply hone
      unfold Snapshot.setClip
      cases st
      · unfold ClipRegionInv at *
        simpa using h
      · simp [ClipRegionInv]

theorem clipRegionInv_applyOp (st : Bool) (s : Snapshot) (o : PubOp)
    (h : ClipRegionInv s) : ClipRegionInv (applyOp st s o) := by
  cases o
  case clipOp l t r b op =>
      exact clipRegionInv_clipTransformed st s _ op h
  case setClipOp l t r b =>
      unfold applyOp Snapshot.setClip
      cases st
      · unfold ClipRegionInv at *
        simpa using h
      · simp [ClipRegionInv]
  case resetClipOp l t r b =>
      unfold applyOp Snapshot.resetClip Snapshot.setClip
      cases st
      · unfold ClipRegionInv at *
        simpa using h
      · simp [ClipRegionInv]
  case resetTransformOp x y z =>
      unfold applyOp Snapshot.resetTransform
      unfold ClipRegionInv at *
      simpa using h
  case saveOp pm pc =>
      unfold applyOp Snapshot.save
      cases st
      · simp [ClipRegionInv]
      · unfold ClipRegionInv at *
        simpa using h

/-- **C4.** The collapse step re-derives the clip rectangle from the
region (bounds when nonempty, empty otherwise) and discards the region
reference exactly when the region is empty or rectangular; and every
public operation preserves the invariant that the region reference is
null unless the clip shape is genuinely non-rectangular. -/
theorem c4_collapse_and_invariant (s : Snapshot) (reg : Region)
    (h : s.clipRegion = some reg) :
    ((Snapshot.copyClipRectFromRegion true s).clipRegion = none ↔
      (reg.isEmpty = true ∨ reg.isRect = true)) ∧
    (reg.isEmpty = true →
      (Snapshot.copyClipRectFromRegion true s).clipRect = FRect.emptyR) ∧
    (reg.isEmpty = false →
      (Snapshot.copyClipRectFromRegion true s).clipRect =
        FRect.ofI reg.bounds) ∧
    ((Snapshot.copyClipRectFromRegion true s).clipRegion ≠ none →
      (Snapshot.copyClipRectFromRegion true s).clipRegion = some reg ∧
      reg.isEmpty = false ∧ reg.isRect = false) ∧
    (∀ (st' : Bool) (s' : Snapshot) (o : PubOp), ClipRegionInv s' →
      ClipRegionInv (applyOp st' s' o)) := by
  refine ⟨?_, ?_, ?_, ?_, clipRegionInv_applyOp⟩ <;>
    · unfold Snapshot.copyClipRectFromRegion
      cases he : reg.isEmpty <;> cases hrect : reg.isRect <;>
        simp [h, he, hrect]

/-- Witness for C4: collapsing a two-square (non-rectangular) region
keeps the region and sets the clip rectangle to its bounds; the
invariant holds at that state and is preserved by a difference clip. -/
theorem c4_collapse_and_invariant_witness :
    (Snapshot.copyClipRectFromRegion true
        { Snapshot.root with
          clipRect := ⟨0, 0, 30, 10⟩,
          clipRegion := some [⟨0, 0, 10, 10⟩, ⟨20, 0, 30, 10⟩] }).clipRegion ≠
      none ∧
    (Snapshot.copyClipRectFromRegion true
        { Snapshot.root with
          clipRect := ⟨0, 0, 30, 10⟩,
          clipRegion := some [⟨0, 0, 10, 10⟩, ⟨20, 0, 30, 10⟩] }).clipRect =
      FRect.ofI (Region.bounds [⟨0, 0, 10, 10⟩, ⟨20, 0, 30, 10⟩]) ∧
    ClipRegionInv (applyOp true
      { Snapshot.root with
        clipRect := ⟨0, 0, 30, 10⟩,
        clipRegion := some [⟨0, 0, 10, 10⟩, ⟨20, 0, 30, 10⟩] }
      (.clipOp 0 0 5 5 .kDifference)) := by
  have h := c4_collapse_and_invariant
    { Snapshot.root with
      clipRect := ⟨0, 0, 30, 10⟩,
      clipRegion := some [⟨0, 0, 10, 10⟩, ⟨20, 0, 30, 10⟩] }
    [⟨0, 0, 10, 10⟩, ⟨20, 0, 30, 10⟩] rfl
  refine ⟨?_, h.2.2.1 (by decide), h.2.2.2.2 true _ _ (by decide)⟩
  intro hnone
  rw [h.1] at hnone
  revert hnone
  decide

theorem empty_copyClipRectFromRegion (st : Bool) (s : Snapshot) :
    (Snapshot.copyClipRectFromRegion st s).empty = s.empty := by
  unfold Snapshot.copyClipRectFromRegion
  cases st
  · simp
  · cases hcr : s.clipRegion with
    | none => simp [hcr]
    | some reg =>
        cases he : reg.isEmpty <;> cases hrect : reg.isRect <;>
          simp [hcr, he, hrect]

theorem empty_ensureClipRegion (st : Bool) (s : Snapshot) :
    (Snapshot.ensureClipRegion st s).empty = s.empty := by
  unfold Snapshot.ensureClipRegion
  cases st
  · simp
  · cases hcr : s.clipRegion <;> simp [hcr]

theorem empty_clipRegionOr (st : Bool) (s : Snapshot) (l t r b : ℚ) :
    (Snapshot.clipRegionOr st s l t r b).1.empty = s.empty := by
  unfold Snapshot.clipRegionOr
  cases st
  · simp
  · cases hcr : s.clipRegion <;> simp [hcr, empty_copyClipRectFromRegion]

theorem empty_clipRegionXor (st : Bool) (s : Snapshot) (l t r b : ℚ) :
    (Snapshot.clipRegionXor st s l t r b).1.empty = s.empty := by
  unfold Snapshot.clipRegionXor
  cases st
  · simp
  · cases hcr : s.clipRegion <;> simp [hcr, empty_copyClipRectFromRegion]

theorem empty_clipRegionAnd (st : Bool) (s : Snapshot) (l t r b : ℚ) :
    (Snapshot.clipRegionAnd st s l t r b).1.empty = s.empty := by
  unfold Snapshot.clipRegionAnd
  cases st
  · simp
  · cases hcr : s.clipRegion <;> simp [hcr, empty_copyClipRectFromRegion]

theorem empty_clipRegionNand (st : Bool) (s : Snapshot) (l t r b : ℚ) :
    (Snapshot.clipRegionNand st s l t r b).1.empty = s.empty := by
  unfold Snapshot.clipRegionNand
  cases st
  · simp
  · cases hcr : s.clipRegion <;> simp [hcr, empty_copyClipRectFromRegion]

theorem empty_setClip (st : Bool) (s : Snapshot) (l t r b : ℚ) :
    (Snapshot.setClip st s l t r b).empty = s.empty := by
  unfold Snapshot.setClip
  cases st <;> simp

theorem empty_clipTransformed (st : Bool) (s : Snapshot) (r : FRect)
    (op : SkOp) : (Snapshot.clipTransformed st s r op).1.empty = s.empty := by
  have hwrap : ∀ res : Snapshot × Bool,
      (if res.2 = true then ({ res.1 with flagClipSet := true }, true)
        else res).1.empty = res.1.empty := by
    intro res
    cases hb : res.2 <;> simp [hb]
  cases op <;> unfold Snapshot.clipTransformed <;> simp only [hwrap]
  case kDifference =>
      rw [empty_clipRegionNand, empty_ensureClipRegion]
  case kIntersect =>
      cases hcr : s.clipRegion with
      | none =>
          cases hi : s.clipRect.intersectQ r <;> simp [hcr, hi]
      | some reg => simp [hcr, empty_clipRegionOr]
  case kUnion =>
      cases hcr : s.clipRegion with
      | none => simp [hcr]
      | some reg => simp [hcr, empty_clipRegionAnd]
  case kXOR =>
      rw [empty_clipRegionXor, empty_ensureClipRegion]
  case kReverseDifference => rfl
  case kReplace => simp [empty_setClip]

theorem empty_applyOp (st : Bool) (s : Snapshot) (o : PubOp)
    (h : s.empty = false) : (applyOp st s o).empty = false := by
  cases o
  case clipOp l t r b op =>
      unfold applyOp Snapshot.clip
      rw [empty_clipTransformed]
      exact h
  case setClipOp l t r b =>
      unfold applyOp
      rw [empty_setClip]
      exact h
  case resetClipOp l t r b =>
      unfold applyOp Snapshot.resetClip
      rw [empty_setClip]
      exact h
  case resetTransformOp x y z =>
      unfold applyOp Snapshot.resetTransform
      exact h
  case saveOp pm pc =>
      unfold applyOp Snapshot.save
      rfl

/-- **C10.** No operation of the core ever sets `empty` to true: both
constructors initialise it to false and every public operation
preserves falseness (clip collapse writes only the clip rectangle); so
after any operation sequence, `isIgnored` is exactly the inherited
`invisible` flag. -/
theorem c10_empty_never_set :
    Snapshot.root.empty = false ∧
    (∀ (st : Bool) (s : Snapshot) (pm pc : Bool),
      (Snapshot.save st s pm pc).empty = false) ∧
    (∀ (st : Bool) (s : Snapshot) (o : PubOp),
      s.empty = false → (applyOp st s o).empty = false) ∧
    (∀ (st : Bool) (s : Snapshot) (ops : List PubOp), s.empty = false →
      (runOps st s ops).empty = false ∧
      (runOps st s ops).isIgnored = (runOps st s ops).invisible) := by
  refine ⟨rfl, fun st s pm pc => rfl, empty_applyOp, ?_⟩
  intro st s ops
  induction ops generalizing s with
  | nil =>
      intro h
      refine ⟨h, ?_⟩
      unfold runOps Snapshot.isIgnored
      simp [h]
  | cons o rest ih =>
      intro h
      have hstep : (applyOp st s o).empty = false := empty_applyOp st s o h
      exact ih (applyOp st s o) hstep

/-- Witness for C10: a clip, a save and a reset-clip starting from the
root leave `empty` false and `isIgnored` equal to `invisible`. -/
theorem c10_empty_never_set_witness :
    (runOps true Snapshot.root
        [.clipOp 0 0 50 50 .kDifference, .saveOp true true,
         .resetClipOp 1 1 2 2]).empty = false ∧
    (runOps true Snapshot.root
        [.clipOp 0 0 50 50 .kDifference, .saveOp true true,
         .resetClipOp 1 1 2 2]).isIgnored =
      (runOps true Snapshot.root
        [.clipOp 0 0 50 50 .kDifference, .saveOp true true,
         .resetClipOp 1 1 2 2]).invisible :=
  c10_empty_never_set.2.2.2 true Snapshot.root
    [.clipOp 0 0 50 50 .kDifference, .saveOp true true,
     .resetClipOp 1 1 2 2] rfl

/-- **C8.** The local-clip query maps the current clip rectangle
through the inverse of the current transform; after a reset-transform
to a translation (x, y, z), the local clip of a well-formed clip
rectangle is that rectangle translated by (-x, -y). -/
theorem c8_getLocalClip (s : Snapshot) (x y z : ℚ)
    (h1 : s.clipRect.left ≤ s.clipRect.right)
    (h2 : s.clipRect.top ≤ s.clipRect.bottom) :
    Snapshot.getLocalClip s =
      (Transform.loadInverse s.transform).mapRect s.clipRect ∧
    Snapshot.getLocalClip (Snapshot.resetTransform s x y z) =
      ⟨s.clipRect.left - x, s.clipRect.top - y,
       s.clipRect.right - x, s.clipRect.bottom - y⟩ := by
  refine ⟨rfl, ?_⟩
  unfold Snapshot.getLocalClip Snapshot.resetTransform Transform.loadTranslate
    Transform.loadInverse Transform.mapRect Transform.apply Transform.det
  have hx : s.clipRect.left + -x ≤ s.clipRect.right + -x := by linarith
  have hy : s.clipRect.top + -y ≤ s.clipRect.bottom + -y := by linarith
  norm_num [qmin_eq, qmax_eq]
  refine ⟨?_, ?_, ?_, ?_⟩
  · rw [min_eq_left hx, sub_eq_add_neg]
  · rw [min_eq_left hy, sub_eq_add_neg]
  · rw [max_eq_right hx, sub_eq_add_neg]
  · rw [max_eq_right hy, sub_eq_add_neg]

/-- Witness for C8 at the spec's example: resetTransform(5, 7, 0) on a
node with clip rectangle (10,10,20,20) makes the local clip
(5,3,15,13). -/
theorem c8_getLocalClip_witness :
    Snapshot.getLocalClip (Snapshot.resetTransform
        { Snapshot.root with clipRect := ⟨10, 10, 20, 20⟩ } 5 7 0) =
      ⟨5, 3, 15, 13⟩ := by
  rw [(c8_getLocalClip { Snapshot.root with clipRect := ⟨10, 10, 20, 20⟩ }
    5 7 0 (by decide) (by decide)).2]
  norm_num

/-! ### Pointer aliasing between a child node and its parent

The value model above ignores the copy-versus-alias distinction made
by the save flags. This section models it explicitly for the
parent-mutation claims: a parent/child pair carries the parent's
storage cells (`mClipRectRoot`, `mClipRegionRoot`) and the child's,
together with the child's `clipRect`/`clipRegion` pointers, and every
child clip operation is the embedded source code with each read/write
performed through the pointer it dereferences. -/

/-- Which storage cell the child's `clipRect` pointer designates. -/
inductive RectPtr where
  | own
  | parent
  deriving DecidableEq, Repr

/-- The child's `clipRegion` pointer: null, the child's own region
cell, or the parent's region cell. -/
inductive RegionPtr where
  | null
  | own
  | parent
  deriving DecidableEq, Repr

/-- A parent/child pair. The parent's own pointers are anchored to its
own cells (`pRegionNonNull` is its `clipRegion` pointer); only the
child's pointers can alias across. -/
structure AliasPair where
  pRect : FRect
  pRegionStore : Region
  pRegionNonNull : Bool
  cRectStore : FRect
  cRegionStore : Region
  cRectPtr : RectPtr
  cRegionPtr : RegionPtr
  cFlagClipSet : Bool
  cTransform : Transform
  deriving DecidableEq, Repr

/-- What the parent observes of its own clip state. -/
structure ParentClip where
  rect : FRect
  region : Option Region
  deriving DecidableEq, Repr

namespace AliasPair

/-- The parent's clip rectangle and region, as the parent reads them
through its own pointers. -/
def parentView (a : AliasPair) : ParentClip :=
  ⟨a.pRect, if a.pRegionNonNull then some a.pRegionStore else none⟩

/-- Child construction from the parent (`Snapshot::Snapshot(s, flags)`,
clip part): with the preserve-clip save flag the child copies the
parent's rectangle (and merges its region) into private cells;
without it the child's pointers alias the parent's cells. -/
def mkChild (st : Bool) (p : ParentClip) (t : Transform)
    (preserveClip : Bool) : AliasPair :=
  let nonNull : Bool := p.region.isSome
  if preserveClip then
    { pRect := p.rect
      pRegionStore := p.region.getD []
      pRegionNonNull := nonNull
      cRectStore := p.rect
      cRegionStore := if st && nonNull then p.region.getD [] else []
      cRectPtr := .own
      cRegionPtr := if st && nonNull then .own else .null
      cFlagClipSet := false
      cTransform := t }
  else
    { pRect := p.rect
      pRegionStore := p.region.getD []
      pRegionNonNull := nonNull
      cRectStore := FRect.emptyR
      cRegionStore := []
      cRectPtr := .parent
      cRegionPtr := if st && nonNull then .parent else .null
      cFlagClipSet := false
      cTransform := t }

/-- Read the child's clip rectangle through its pointer. -/
def readRect (a : AliasPair) : FRect :=
  match a.cRectPtr with
  | .own => a.cRectStore
  | .parent => a.pRect

/-- Write the child's clip rectangle through its pointer. -/
def writeRect (a : AliasPair) (r : FRect) : AliasPair :=
  match a.cRectPtr with
  | .own => { a with cRectStore := r }
  | .parent => { a with pRect := r }

/-- Read the child's clip region through its pointer (none = null). -/
def readRegion (a : AliasPair) : Option Region :=
  match a.cRegionPtr with
  | .null => none
  | .own => some a.cRegionStore
  | .parent => some a.pRegionStore

/-- Write the child's clip region through its pointer. -/
def writeRegion (a : AliasPair) (reg : Region) : AliasPair :=
  match a.cRegionPtr with
  | .null => a
  | .own => { a with cRegionStore := reg }
  | .parent => { a with pRegionStore := reg }

/-- `Snapshot::ensureClipRegion()` in the aliasing model: a null child
region pointer is re-anchored to the child's own cell and seeded from
the clip rectangle read through the rectangle pointer. -/
def ensureA (st : Bool) (a : AliasPair) : AliasPair :=
  if st then
    match a.cRegionPtr with
    | .null =>
        let r := a.readRect
        { a with
          cRegionPtr := .own
          cRegionStore :=
            Region.set (IRect.ofQ r.left r.top r.right r.bottom) }
    | _ => a
  else a

/-- `Snapshot::copyClipRectFromRegion()` in the aliasing model: reads
the region and writes the rectangle through the pointers; clearing
writes the emptied region through the region pointer before nulling
it. -/
def collapseA (st : Bool) (a : AliasPair) : AliasPair :=
  if st then
    match a.readRegion with
    | some reg =>
        if !reg.isEmpty then
          let a1 := a.writeRect (FRect.ofI reg.bounds)
          if reg.isRect then
            { a1.writeRegion [] with cRegionPtr := .null }
          else a1
        else { a.writeRect FRect.emptyR with cRegionPtr := .null }
    | none => a
  else a

/-- `Snapshot::clipRegionOr` in the aliasing model. -/
def clipRegionOrA (st : Bool) (a : AliasPair) (l t r b : ℚ) :
    AliasPair × Bool :=
  if st then
    match a.readRegion with
    | some reg => (collapseA st
        (a.writeRegion (reg.orOp (IRect.ofQ l t r b))), true)
    | none => (a, true)
  else (a, false)

/-- `Snapshot::clipRegionXor` in the aliasing model. -/
def clipRegionXorA (st : Bool) (a : AliasPair) (l t r b : ℚ) :
    AliasPair × Bool :=
  if st then
    match a.readRegion with
    | some reg => (collapseA st
        (a.writeRegion (reg.xorOp (IRect.ofQ l t r b))), true)
    | none => (a, true)
  else (a, false)

/-- `Snapshot::clipRegionAnd` in the aliasing model. -/
def clipRegionAndA (st : Bool) (a : AliasPair) (l t r b : ℚ) :
    AliasPair × Bool :=
  if st then
    match a.readRegion with
    | some reg => (collapseA st
        (a.writeRegion (reg.andOp (IRect.ofQ l t r b))), true)
    | none => (a, true)
  else (a, false)

/-- `Snapshot::clipRegionNand` in the aliasing model. -/
def clipRegionNandA (st : Bool) (a : AliasPair) (l t r b : ℚ) :
    AliasPair × Bool :=
  if st then
    match a.readRegion with
    | some reg => (collapseA st
        (a.writeRegion (reg.subOp (IRect.ofQ l t r b))), true)
    | none => (a, true)
  else (a, false)

/-- `Snapshot::setClip` in the aliasing model: writes the rectangle
through the rectangle pointer; a non-null region is cleared through
the region pointer and then nulled. -/
def setClipA (st : Bool) (a : AliasPair) (l t r b : ℚ) : AliasPair :=
  let a1 := a.writeRect ⟨l, t, r, b⟩
  let a2 :=
    if st then
      match a1.cRegionPtr with
      | .null => a1
      | _ => { a1.writeRegion [] with cRegionPtr := .null }
    else a1
  { a2 with cFlagClipSet := true }

/-- `Snapshot::clipTransformed` in the aliasing model. -/
def clipTransformedA (st : Bool) (a : AliasPair) (r : FRect) (op : SkOp) :
    AliasPair × Bool :=
  let res : AliasPair × Bool :=
    match op with
    | .kDifference =>
        clipRegionNandA st (ensureA st a) r.left r.top r.right r.bottom
    | .kIntersect =>
        match a.readRegion with
        | some _ => clipRegionOrA st a r.left r.top r.right r.bottom
        | none =>
            match a.readRect.intersectQ r with
            | some nr => (a.writeRect nr, true)
            | none => (a.writeRect FRect.emptyR, true)
    | .kUnion =>
        match a.readRegion with
        | some _ => clipRegionAndA st a r.left r.top r.right r.bottom
        | none =>
            let u := a.readRect.unionWithQ r
            (a.writeRect u.1, u.2)
    | .kXOR =>
        clipRegionXorA st (ensureA st a) r.left r.top r.right r.bottom
    | .kReverseDifference => (a, false)
    | .kReplace => (setClipA st a r.left r.top r.right r.bottom, true)
  if res.2 then ({ res.1 with cFlagClipSet := true }, true) else res

/-- `Snapshot::clip` in the aliasing model. -/
def clipA (st : Bool) (a : AliasPair) (l t r b : ℚ) (op : SkOp) :
    AliasPair × Bool :=
  clipTransformedA st a (a.cTransform.mapRect ⟨l, t, r, b⟩) op

/-- `Snapshot::resetClip` in the aliasing model: re-anchors the
rectangle pointer to the child's own cell before setting the clip. -/
def resetClipA (st : Bool) (a : AliasPair) (l t r b : ℚ) : AliasPair :=
  setClipA st { a with cRectPtr := .own } l t r b

end AliasPair

/-- One clip-changing call on the child node. -/
inductive ClipCall where
  | clipC (l t r b : ℚ) (op : SkOp)
  | setClipC (l t r b : ℚ)
  | resetClipC (l t r b : ℚ)
  deriving DecidableEq, Repr

/-- Apply one clip-changing call to the child of a pair. -/
def applyClipCall (st : Bool) (a : AliasPair) (c : ClipCall) : AliasPair :=
  match c with
  | .clipC l t r b op => (AliasPair.clipA st a l t r b op).1
  | .setClipC l t r b => AliasPair.setClipA st a l t r b
  | .resetClipC l t r b => AliasPair.resetClipA st a l t r b

namespace AliasPair

/-- The child holds no alias into the parent's cells. -/
def NoParentAlias (a : AliasPair) : Prop :=
  a.cRectPtr = RectPtr.own ∧ a.cRegionPtr ≠ RegionPtr.parent

instance (a : AliasPair) : Decidable (NoParentAlias a) := by
  unfold NoParentAlias
  infer_instance

/-- The parent's cells are untouched going from `a` to `b`. -/
def ParentFrozen (a b : AliasPair) : Prop :=
  b.pRect = a.pRect ∧ b.pRegionStore = a.pRegionStore ∧
  b.pRegionNonNull = a.pRegionNonNull

theorem parentView_eq_of_frozen {a b : AliasPair} (h : ParentFrozen a b) :
    b.parentView = a.parentView := by
  unfold parentView
  rw [h.1, h.2.1, h.2.2]

theorem frozen_rfl (a : AliasPair) : ParentFrozen a a := ⟨rfl, rfl, rfl⟩

theorem frozen_trans {a b c : AliasPair} (h1 : ParentFrozen a b)
    (h2 : ParentFrozen b c) : ParentFrozen a c :=
  ⟨h2.1.trans h1.1, h2.2.1.trans h1.2.1, h2.2.2.trans h1.2.2⟩

theorem writeRect_frozen (a : AliasPair) (r : FRect)
    (hR : a.cRectPtr = RectPtr.own) :
    ParentFrozen a (a.writeRect r) ∧
    (a.writeRect r).cRectPtr = a.cRectPtr ∧
    (a.writeRect r).cRegionPtr = a.cRegionPtr := by
  obtain ⟨pR, pRS, pRN, cRS, cGS, cRP, cGP, cF, cT⟩ := a
  replace hR : cRP = RectPtr.own := hR
  subst hR
  exact ⟨frozen_rfl _, rfl, rfl⟩

theorem writeRegion_frozen (a : AliasPair) (reg : Region)
    (hG : a.cRegionPtr ≠ RegionPtr.parent) :
    ParentFrozen a (a.writeRegion reg) ∧
    (a.writeRegion reg).cRectPtr = a.cRectPtr ∧
    (a.writeRegion reg).cRegionPtr = a.cRegionPtr := by
  obtain ⟨pR, pRS, pRN, cRS, cGS, cRP, cGP, cF, cT⟩ := a
  replace hG : cGP ≠ RegionPtr.parent := hG
  cases cGP
  case null => exact ⟨frozen_rfl _, rfl, rfl⟩
  case own => exact ⟨⟨rfl, rfl, rfl⟩, rfl, rfl⟩
  case parent => exact absurd rfl hG

theorem ensureA_frozen (st : Bool) (a : AliasPair) :
    ParentFrozen a (ensureA st a) ∧
    (ensureA st a).cRectPtr = a.cRectPtr ∧
    ((ensureA st a).cRegionPtr = a.cRegionPtr ∨
      (ensureA st a).cRegionPtr = RegionPtr.own) := by
  obtain ⟨pR, pRS, pRN, cRS, cGS, cRP, cGP, cF, cT⟩ := a
  cases st
  · exact ⟨frozen_rfl _, rfl, Or.inl rfl⟩
  · cases cGP
    case null => exact ⟨⟨rfl, rfl, rfl⟩, rfl, Or.inr rfl⟩
    case own => exact ⟨frozen_rfl _, rfl, Or.inl rfl⟩
    case parent => exact ⟨frozen_rfl _, rfl, Or.inl rfl⟩

theorem collapseA_frozen (st : Bool) (a : AliasPair)
    (hR : a.cRectPtr = RectPtr.own) (hG : a.cRegionPtr ≠ RegionPtr.parent) :
    ParentFrozen a (collapseA st a) ∧
    (collapseA st a).cRectPtr = RectPtr.own ∧
    (collapseA st a).cRegionPtr ≠ RegionPtr.parent := by
  obtain ⟨pR, pRS, pRN, cRS, cGS, cRP, cGP, cF, cT⟩ := a
  replace hR : cRP = RectPtr.own := hR
  replace hG : cGP ≠ RegionPtr.parent := hG
  subst hR
  cases st
  · exact ⟨frozen_rfl _, rfl, hG⟩
  · cases cGP
    case null => exact ⟨frozen_rfl _, rfl, hG⟩
    case parent => exact absurd rfl hG
    case own =>
        unfold collapseA readRegion writeRect writeRegion
        cases he : cGS.isEmpty
        · cases hrect : cGS.isRect <;>
            simp [he, hrect, ParentFrozen]
        · simp [he, ParentFrozen]

theorem clipRegionOrA_frozen (st : Bool) (a : AliasPair) (l t r b : ℚ)
    (hR : a.cRectPtr = RectPtr.own) (hG : a.cRegionPtr ≠ RegionPtr.parent) :
    ParentFrozen a (clipRegionOrA st a l t r b).1 ∧
    (clipRegionOrA st a l t r b).1.cRectPtr = RectPtr.own ∧
    (clipRegionOrA st a l t r b).1.cRegionPtr ≠ RegionPtr.parent := by
  unfold clipRegionOrA
  cases st
  · exact ⟨frozen_rfl _, hR, hG⟩
  · cases hq : a.readRegion with
    | none => simp only [hq]; exact ⟨frozen_rfl _, hR, hG⟩
    | some reg =>
        simp only [hq]
        have hw := writeRegion_frozen a
          (reg.orOp (IRect.ofQ l t r b)) hG
        have hc := collapseA_frozen true _
          (hw.2.1.trans hR) (hw.2.2 ▸ hG)
        exact ⟨frozen_trans hw.1 hc.1, hc.2.1, hc.2.2⟩

theorem clipRegionXorA_frozen (st : Bool) (a : AliasPair) (l t r b : ℚ)
    (hR : a.cRectPtr = RectPtr.own) (hG : a.cRegionPtr ≠ RegionPtr.parent) :
    ParentFrozen a (clipRegionXorA st a l t r b).1 ∧
    (clipRegionXorA st a l t r b).1.cRectPtr = RectPtr.own ∧
    (clipRegionXorA st a l t r b).1.cRegionPtr ≠ RegionPtr.parent := by
  unfold clipRegionXorA
  cases st
  · exact ⟨frozen_rfl _, hR, hG⟩
  · cases hq : a.readRegion with
    | none => simp only [hq]; exact ⟨frozen_rfl _, hR, hG⟩
    | some reg =>
        simp only [hq]
        have hw := writeRegion_frozen a
          (reg.xorOp (IRect.ofQ l t r b)) hG
        have hc := collapseA_frozen true _
          (hw.2.1.trans hR) (hw.2.2 ▸ hG)
        exact ⟨frozen_trans hw.1 hc.1, hc.2.1, hc.2.2⟩

theorem clipRegionAndA_frozen (st : Bool) (a : AliasPair) (l t r b : ℚ)
    (hR : a.cRectPtr = RectPtr.own) (hG : a.cRegionPtr ≠ RegionPtr.parent) :
    ParentFrozen a (clipRegionAndA st a l t r b).1 ∧
    (clipRegionAndA st a l t r b).1.cRectPtr = RectPtr.own ∧
    (clipRegionAndA st a l t r b).1.cRegionPtr ≠ RegionPtr.parent := by
  unfold clipRegionAndA
  cases st
  · exact ⟨frozen_rfl _, hR, hG⟩
  · cases hq : a.readRegion with
    | none => simp only [hq]; exact ⟨frozen_rfl _, hR, hG⟩
    | some reg =>
        simp only [hq]
        have hw := writeRegion_frozen a
          (reg.andOp (IRect.ofQ l t r b)) hG
        have hc := collapseA_frozen true _
          (hw.2.1.trans hR) (hw.2.2 ▸ hG)
        exact ⟨frozen_trans hw.1 hc.1, hc.2.1, hc.2.2⟩

theorem clipRegionNandA_frozen (st : Bool) (a : AliasPair) (l t r b : ℚ)
    (hR : a.cRectPtr = RectPtr.own) (hG : a.cRegionPtr ≠ RegionPtr.parent) :
    ParentFrozen a (clipRegionNandA st a l t r b).1 ∧
    (clipRegionNandA st a l t r b).1.cRectPtr = RectPtr.own ∧
    (clipRegionNandA st a l t r b).1.cRegionPtr ≠ RegionPtr.parent := by
  unfold clipRegionNandA
  cases st
  · exact ⟨frozen_rfl _, hR, hG⟩
  · cases hq : a.readRegion with
    | none => simp only [hq]; exact ⟨frozen_rfl _, hR, hG⟩
    | some reg =>
        simp only [hq]
        have hw := writeRegion_frozen a
          (reg.subOp (IRect.ofQ l t r b)) hG
        have hc := collapseA_frozen true _
          (hw.2.1.trans hR) (hw.2.2 ▸ hG)
        exact ⟨frozen_trans hw.1 hc.1, hc.2.1, hc.2.2⟩

theorem setClipA_frozen (st : Bool) (a : AliasPair) (l t r b : ℚ)
    (hR : a.cRectPtr = RectPtr.own) (hG : a.cRegionPtr ≠ RegionPtr.parent) :
    ParentFrozen a (setClipA st a l t r b) ∧
    (setClipA st a l t r b).cRectPtr = RectPtr.own ∧
    (setClipA st a l t r b).cRegionPtr ≠ RegionPtr.parent := by
  obtain ⟨pR, pRS, pRN, cRS, cGS, cRP, cGP, cF, cT⟩ := a
  replace hR : cRP = RectPtr.own := hR
  replace hG : cGP ≠ RegionPtr.parent := hG
  subst hR
  unfold setClipA writeRect writeRegion
  cases st
  · simp [ParentFrozen]
    exact hG
  · cases cGP
    case null => simp [ParentFrozen]
    case own => simp [ParentFrozen]
    case parent => exact absurd rfl hG

theorem clipTransformedA_frozen (st : Bool) (a : AliasPair) (r : FRect)
    (op : SkOp) (hR : a.cRectPtr = RectPtr.own)
    (hG : a.cRegionPtr ≠ RegionPtr.parent) :
    ParentFrozen a (clipTransformedA st a r op).1 ∧
    (clipTransformedA st a r op).1.cRectPtr = RectPtr.own ∧
    (clipTransformedA st a r op).1.cRegionPtr ≠ RegionPtr.parent := by
  have hwrap : ∀ res : AliasPair × Bool,
      ParentFrozen a res.1 → res.1.cRectPtr = RectPtr.own →
      res.1.cRegionPtr ≠ RegionPtr.parent →
      ParentFrozen a (if res.2 = true then
          ({ res.1 with cFlagClipSet := true }, true) else res).1 ∧
      (if res.2 = true then ({ res.1 with cFlagClipSet := true }, true)
        else res).1.cRectPtr = RectPtr.own ∧
      (if res.2 = true then ({ res.1 with cFlagClipSet := true }, true)
        else res).1.cRegionPtr ≠ RegionPtr.parent := by
    intro res hf hr hg
    cases hb : res.2 <;> simp [hb]
    · exact ⟨hf, hr, hg⟩
    · exact ⟨⟨hf.1, hf.2.1, hf.2.2⟩, hr, hg⟩
  cases op <;> unfold clipTransformedA
  case kDifference =>
      apply hwrap
      all_goals
        have he := ensureA_frozen st a
        have hR' := he.2.1.trans hR
        have hG' : (ensureA st a).cRegionPtr ≠ RegionPtr.parent := by
          rcases he.2.2 with h | h
          · rw [h]; exact hG
          · rw [h]; simp
        have hn := clipRegionNandA_frozen st (ensureA st a)
          r.left r.top r.right r.bottom hR' hG'
      · exact frozen_trans he.1 hn.1
      · exact hn.2.1
      · exact hn.2.2
  case kIntersect =>
      apply hwrap
      all_goals cases hq : a.readRegion with
      | some reg =>
          have ho := clipRegionOrA_frozen st a
            r.left r.top r.right r.bottom hR hG
          simp only [hq]
          first
            | exact ho.1
            | exact ho.2.1
            | exact ho.2.2
      | none =>
          simp only [hq]
          cases hi : a.readRect.intersectQ r with
          | some nr =>
              simp only [hi]
              first
                | exact (writeRect_frozen a nr hR).1
                | exact (writeRect_frozen a nr hR).2.1.trans hR
                | (rw [(writeRect_frozen a nr hR).2.2]; exact hG)
          | none =>
              simp only [hi]
              first
                | exact (writeRect_frozen a FRect.emptyR hR).1
                | exact (writeRect_frozen a FRect.emptyR hR).2.1.trans hR
                | (rw [(writeRect_frozen a FRect.emptyR hR).2.2]; exact hG)
  case kUnion =>
      apply hwrap
      all_goals cases hq : a.readRegion with
      | some reg =>
          have ho := clipRegionAndA_frozen st a
            r.left r.top r.right r.bottom hR hG
          simp only [hq]
          first
            | exact ho.1
            | exact ho.2.1
            | exact ho.2.2
      | none =>
          simp only [hq]
          first
            | exact hG
            | exact (writeRect_frozen a (a.readRect.unionWithQ r).1 hR).1
            | exact (writeRect_frozen a
                (a.readRect.unionWithQ r).1 hR).2.1.trans hR
            | (rw [(writeRect_frozen a (a.readRect.unionWithQ r).1 hR).2.2];
                exact hG)
  case kXOR =>
      apply hwrap
      all_goals
        have he := ensureA_frozen st a
        have hR' := he.2.1.trans hR
        have hG' : (ensureA st a).cRegionPtr ≠ RegionPtr.parent := by
          rcases he.2.2 with h | h
          · rw [h]; exact hG
          · rw [h]; simp
        have hn := clipRegionXorA_frozen st (ensureA st a)
          r.left r.top r.right r.bottom hR' hG'
      · exact frozen_trans he.1 hn.1
      · exact hn.2.1
      · exact hn.2.2
  case kReverseDifference =>
      exact ⟨frozen_rfl _, hR, hG⟩
  case kReplace =>
      apply hwrap
      · exact (setClipA_frozen st a r.left r.top r.right r.bottom hR hG).1
      · exact (setClipA_frozen st a r.left r.top r.right r.bottom hR hG).2.1
      · exact (setClipA_frozen st a r.left r.top r.right r.bottom hR hG).2.2

theorem resetClipA_frozen (st : Bool) (a : AliasPair) (l t r b : ℚ)
    (hG : a.cRegionPtr ≠ RegionPtr.parent) :
    ParentFrozen a (resetClipA st a l t r b) ∧
    (resetClipA st a l t r b).cRectPtr = RectPtr.own ∧
    (resetClipA st a l t r b).cRegionPtr ≠ RegionPtr.parent := by
  unfold resetClipA
  have hs := setClipA_frozen st { a with cRectPtr := RectPtr.own }
    l t r b rfl hG
  exact ⟨frozen_trans ⟨rfl, rfl, rfl⟩ hs.1, hs.2.1, hs.2.2⟩

theorem applyClipCall_frozen (st : Bool) (a : AliasPair) (c : ClipCall)
    (h : NoParentAlias a) :
    ParentFrozen a (applyClipCall st a c) ∧
    NoParentAlias (applyClipCall st a c) := by
  obtain ⟨hR, hG⟩ := h
  cases c
  case clipC l t r b op =>
      have hc := clipTransformedA_frozen st a
        (a.cTransform.mapRect ⟨l, t, r, b⟩) op hR hG
      exact ⟨hc.1, hc.2.1, hc.2.2⟩
  case setClipC l t r b =>
      have hs := setClipA_frozen st a l t r b hR hG
      exact ⟨hs.1, hs.2.1, hs.2.2⟩
  case resetClipC l t r b =>
      have hs := resetClipA_frozen st a l t r b hG
      exact ⟨hs.1, hs.2.1, hs.2.2⟩

theorem mkChild_preserveClip_noAlias (st : Bool) (p : ParentClip)
    (t : Transform) : NoParentAlias (mkChild st p t true) := by
  obtain ⟨prect, preg⟩ := p
  unfold mkChild NoParentAlias
  cases hb : (st && (Option.isSome preg)) <;> simp [hb]

theorem parentView_mkChild (st : Bool) (p : ParentClip) (t : Transform)
    (pc : Bool) : (mkChild st p t pc).parentView = p := by
  obtain ⟨prect, preg⟩ := p
  unfold mkChild parentView
  cases preg <;> cases pc <;> cases st <;> simp

end AliasPair

/-- **C7, counterexample.** The claim fails as stated: a child
constructed without the preserve-clip save flag aliases its parent's
clip rectangle storage, and a set-clip call on the child writes
through that pointer — the parent's clip rectangle changes from
(0,0,100,100) to (0,0,1,1). There is no implicit detach. -/
theorem c7_alias_counterexample :
    (AliasPair.parentView (AliasPair.mkChild true ⟨⟨0, 0, 100, 100⟩, none⟩
        Transform.identityT false)).rect = ⟨0, 0, 100, 100⟩ ∧
    (AliasPair.parentView (applyClipCall true
        (AliasPair.mkChild true ⟨⟨0, 0, 100, 100⟩, none⟩
          Transform.identityT false)
        (.setClipC 0 0 1 1))).rect = ⟨0, 0, 1, 1⟩ ∧
    AliasPair.parentView (applyClipCall true
        (AliasPair.mkChild true ⟨⟨0, 0, 100, 100⟩, none⟩
          Transform.identityT false)
        (.setClipC 0 0 1 1)) ≠
      AliasPair.parentView (AliasPair.mkChild true ⟨⟨0, 0, 100, 100⟩, none⟩
        Transform.identityT false) := by
  refine ⟨by decide, by decide, by decide⟩

/-- **C7, amended.** A child constructed *with* the preserve-clip save
flag holds private clip state: no sequence of clip-changing calls on
it alters the parent's observable clip rectangle or region. For an
alias-mode child only reset-clip detaches, and it leaves the parent's
clip unchanged provided the child's region pointer is not an alias of
the parent's region cell (in particular whenever the parent had no
active clip region); clip and set-clip on an alias-mode child write
through the shared storage and can alter the parent's clip. -/
theorem c7_alias_mutation_localised :
    (∀ (st : Bool) (p : ParentClip) (t : Transform) (ccs : List ClipCall),
      AliasPair.parentView (ccs.foldl (applyClipCall st)
        (AliasPair.mkChild st p t true)) = p) ∧
    (∀ (st : Bool) (a : AliasPair) (l t r b : ℚ),
      a.cRegionPtr ≠ RegionPtr.parent →
      AliasPair.parentView (AliasPair.resetClipA st a l t r b) =
        a.parentView) := by
  constructor
  · intro st p t ccs
    have key : ∀ (cs : List ClipCall) (a : AliasPair),
        AliasPair.NoParentAlias a →
        AliasPair.parentView (cs.foldl (applyClipCall st) a) =
          a.parentView := by
      intro cs
      induction cs with
      | nil => intro a _; rfl
      | cons c rest ih =>
          intro a ha
          have hstep := AliasPair.applyClipCall_frozen st a c ha
          calc AliasPair.parentView
                (rest.foldl (applyClipCall st) (applyClipCall st a c))
              = (applyClipCall st a c).parentView := ih _ hstep.2
            _ = a.parentView :=
                AliasPair.parentView_eq_of_frozen hstep.1
    rw [key ccs _ (AliasPair.mkChild_preserveClip_noAlias st p t),
      AliasPair.parentView_mkChild]
  · intro st a l t r b hG
    exact AliasPair.parentView_eq_of_frozen
      (AliasPair.resetClipA_frozen st a l t r b hG).1

/-- Witness for the amended C7: a preserve-clip child of a parent with
clip (0,0,100,100) runs a set-clip, an intersect clip and a reset-clip
without changing the parent's view; a reset-clip on an alias-mode
child (region pointer null) also leaves the parent's view unchanged. -/
theorem c7_alias_mutation_localised_witness :
    AliasPair.parentView
      ([ClipCall.setClipC 0 0 1 1, ClipCall.clipC 0 0 50 50 .kIntersect,
        ClipCall.resetClipC 2 2 9 9].foldl (applyClipCall true)
        (AliasPair.mkChild true ⟨⟨0, 0, 100, 100⟩, none⟩
          Transform.identityT true)) = ⟨⟨0, 0, 100, 100⟩, none⟩ ∧
    AliasPair.parentView (AliasPair.resetClipA true
        (AliasPair.mkChild true ⟨⟨0, 0, 100, 100⟩, none⟩
          Transform.identityT false) 0 0 1 1) =
      (AliasPair.mkChild true ⟨⟨0, 0, 100, 100⟩, none⟩
        Transform.identityT false).parentView :=
  ⟨c7_alias_mutation_localised.1 true ⟨⟨0, 0, 100, 100⟩, none⟩
      Transform.identityT
      [ClipCall.setClipC 0 0 1 1, ClipCall.clipC 0 0 50 50 .kIntersect,
        ClipCall.resetClipC 2 2 9 9],
    c7_alias_mutation_localised.2 true
      (AliasPair.mkChild true ⟨⟨0, 0, 100, 100⟩, none⟩
        Transform.identityT false) 0 0 1 1 (by decide)⟩

end SnapshotSpec
